import Mathlib

/-!
Shallow embedding of the temperature-logging dashboard:
  * the SQL schema (`temperature_readings`),
  * the REST endpoint (`POST` / `GET` in `src/routes/lab/api/+server.ts`),
  * the client data layer and graph renderer (Svelte component).

Machine numbers from JavaScript are modelled as `ℚ` (temperatures,
pixel coordinates) and `Int` (epoch timestamps, query parameters);
JSON absence (`undefined` / missing key) is modelled with `Option`.
-/

namespace TempLab

/-- Columns of `temperature_readings` as declared in the schema file:
`id`, `temperature`, `timestamp`, `device_id`, `metadata`. -/
def schemaColumns : List String := ["id", "temperature", "timestamp", "device_id", "metadata"]

/-- Schema default for the `device_id` column (`TEXT DEFAULT 'pico_xxx'`).
A SQL column default applies only when the column is omitted from an
INSERT column list. -/
def defaultDeviceId : String := "pico_xxx"

/-- One stored row of `temperature_readings`.  `timestamp`, `device_id` and
`metadata` are nullable (`none` = SQL NULL); `id` is the autoincrement key. -/
structure Row where
  id : Nat
  temperature : ℚ
  timestamp : Option String
  device_id : Option String
  metadata : Option String
deriving Repr, DecidableEq

/-- The backing store: the rows plus the next autoincrement id. -/
structure Db where
  rows : List Row
  nextId : Nat
deriving Repr, DecidableEq

/-- A parsed JSON body for `POST /lab/api`.
`temperature = none` models a body without a `temperature` key
(`hasOwnProperty` fails); `temperature = some none` models a present value
on which `parseFloat` yields `NaN`; `temperature = some (some t)` a value
parsing to the number `t`.  For `device_id` and `timestamp`, which the
handler binds verbatim, `none` models an absent key (JS `undefined`, which
the D1 client refuses to bind), `some none` an explicit JSON null (bound
as SQL NULL) and `some (some s)` a string.  `metadata` holds the
already-stringified metadata object (the handler binds
`body.metadata ? JSON.stringify(body.metadata) : null`, so this bind is
never `undefined`).  The `location` field is sent by the UI but never read
by the handler. -/
structure PostBody where
  temperature : Option (Option ℚ)
  device_id : Option (Option String)
  timestamp : Option (Option String)
  metadata : Option String
  location : Option String
deriving Repr, DecidableEq

/-- The JSON reply of the POST handler: `ok` flag, HTTP status,
optional `error` string, optional inserted `id`. -/
structure PostResponse where
  ok : Bool
  status : Nat
  error : Option String
  id : Option Nat
deriving Repr, DecidableEq

/-- The POST handler of `+server.ts`, lines 4-57: key-presence check,
`parseFloat` + range check (`isNaN || t < -50 || t > 100` rejects), database
availability check, then the INSERT binding
`(temperature, body.device_id, body.timestamp, metadata)` explicitly.  The
store is Cloudflare D1: binding a JS `undefined` value (an absent
`device_id` or `timestamp` key) raises `D1_TYPE_ERROR`, which the catch
block turns into a 500 with no row written; binding JSON null stores SQL
NULL.  Since the columns are listed explicitly, the schema's column
defaults are never consulted on this path.  Returns the JSON response and
the resulting store. -/
def POST (body : PostBody) (db : Option Db) : PostResponse × Option Db :=
  match body.temperature with
  | none => (⟨false, 400, some "temperature field is required", none⟩, db)
  | some tv =>
    match tv with
    | none =>
      (⟨false, 400, some "temperature must be a number between -50 and 100", none⟩, db)
    | some temperature =>
      if temperature < -50 ∨ temperature > 100 then
        (⟨false, 400, some "temperature must be a number between -50 and 100", none⟩, db)
      else
        match db with
        | none => (⟨false, 500, some "Database not available", none⟩, none)
        | some d =>
          match body.device_id, body.timestamp with
          | some dv, some ts =>
            let row : Row := ⟨d.nextId, temperature, ts, dv, body.metadata⟩
            (⟨true, 200, none, some d.nextId⟩, some ⟨d.rows ++ [row], d.nextId + 1⟩)
          | _, _ =>
            (⟨false, 500, some "Failed to save temperature reading", none⟩, some d)

/-- Ordering used by `ORDER BY timestamp DESC` (newest first).  NULL
timestamps are compared as the empty string; the engine's exact collation
is external and none of the claims depend on the resulting order. -/
def tsDescLe (a b : Row) : Prop := b.timestamp.getD "" ≤ a.timestamp.getD ""

instance : DecidableRel tsDescLe := fun a b =>
  inferInstanceAs (Decidable (b.timestamp.getD "" ≤ a.timestamp.getD ""))

/-- The clause `ORDER BY timestamp DESC`, modelled as a stable sort. -/
def sortByTimestampDesc (rows : List Row) : List Row :=
  List.insertionSort tsDescLe rows

/-- SQL `OFFSET o`: a negative offset behaves like zero. -/
def sqlOffset (o : Int) (xs : List Row) : List Row := xs.drop o.toNat

/-- SQL `LIMIT l`: a negative limit means no limit. -/
def sqlLimit (l : Int) (xs : List Row) : List Row :=
  if l < 0 then xs else xs.take l.toNat

/-- Value of column `c` of a row, rendered for a SQL equality comparison;
`none` both for SQL NULL and for a column the row does not have. -/
def rowCol (r : Row) (c : String) : Option String :=
  if c = "id" then some (toString r.id)
  else if c = "temperature" then some (toString r.temperature)
  else if c = "timestamp" then r.timestamp
  else if c = "device_id" then r.device_id
  else if c = "metadata" then r.metadata
  else none

/-- Executing `SELECT * FROM temperature_readings [WHERE c = v] ORDER BY
timestamp DESC LIMIT l OFFSET o`.  Referencing a column that is not in the
schema is a query error (SQLite: `no such column`). -/
def runSelect (whereC : Option (String × String)) (l o : Int) (rows : List Row) :
    Except String (List Row) :=
  match whereC with
  | none => .ok (sqlLimit l (sqlOffset o (sortByTimestampDesc rows)))
  | some (c, v) =>
    if c ∈ schemaColumns then
      .ok (sqlLimit l (sqlOffset o (sortByTimestampDesc
        (rows.filter (fun r => decide (rowCol r c = some v))))))
    else .error ("no such column: " ++ c)

/-- Executing `SELECT COUNT(*) FROM temperature_readings [WHERE c = v]`. -/
def runCount (whereC : Option (String × String)) (rows : List Row) :
    Except String Int :=
  match whereC with
  | none => .ok (rows.length : Int)
  | some (c, v) =>
    if c ∈ schemaColumns then
      .ok (((rows.filter (fun r => decide (rowCol r c = some v))).length : Int))
    else .error ("no such column: " ++ c)

/-- Query parameters of `GET /lab/api`.  For `limit` and `offset`,
`none` models an absent (or empty, hence falsy) parameter, `some none` a
present parameter on which `parseInt` yields `NaN`, and `some (some n)` a
parameter parsing to `n`. -/
structure GetQuery where
  limit : Option (Option Int)
  offset : Option (Option Int)
  location : Option String
deriving Repr, DecidableEq

/-- Model of `parseInt(url.searchParams.get('limit') || '100')`. -/
def parsedLimit (q : GetQuery) : Option Int :=
  match q.limit with
  | none => some 100
  | some v => v

/-- Model of `parseInt(url.searchParams.get('offset') || '0')`. -/
def parsedOffset (q : GetQuery) : Option Int :=
  match q.offset with
  | none => some 0
  | some v => v

/-- JS truthiness of the `location` parameter (`if (location)`):
absent and empty strings are falsy. -/
def locationActive (q : GetQuery) : Bool :=
  match q.location with
  | none => false
  | some s => decide (s ≠ "")

/-- The `meta` object of a successful list response. -/
structure ListMeta where
  total : Int
  limit : Int
  offset : Int
  hasMore : Bool
deriving Repr, DecidableEq

/-- The JSON reply of the GET handler. -/
inductive GetResponse where
  | ok (data : List Row) (meta : ListMeta)
  | error (status : Nat) (message : String)
deriving Repr, DecidableEq

/-- The GET handler of `+server.ts`, lines 59-122: database availability
check; `limit = Math.min(parsed, 1000)` (so `Math.min(NaN, 1000)` stays
NaN, modelled as a failed bind, caught as a 500); optional
`WHERE location = ?`; paginated select; count query; `hasMore = offset +
limit < total`.  Any query-execution error lands in the catch block,
returning status 500. -/
def GET (q : GetQuery) (db : Option Db) : GetResponse :=
  match db with
  | none => .error 500 "Database not available"
  | some d =>
    match parsedLimit q, parsedOffset q with
    | some pl, some po =>
      let limit := min pl 1000
      let whereC : Option (String × String) :=
        if locationActive q then some ("location", q.location.getD "") else none
      match runSelect whereC limit po d.rows with
      | .error _ => .error 500 "Failed to fetch temperature readings"
      | .ok results =>
        match runCount whereC d.rows with
        | .error _ => .error 500 "Failed to fetch temperature readings"
        | .ok total => .ok results ⟨total, limit, po, decide (po + limit < total)⟩
    | _, _ => .error 500 "Failed to fetch temperature readings"

/-- A reading as the client parses it from the API response (interface
`PicoData` plus `id`): `timestamp` is the epoch-millisecond number, so
`new Date(r.timestamp).getTime()` is `r.timestamp` itself. -/
structure Reading where
  id : Nat
  temperature : ℚ
  timestamp : Int
  device_id : String
deriving Repr, DecidableEq

/-- The comparator `(a, b) => ta - tb` of the client sort, as a relation:
`a` sorts no later than `b`. -/
def tsLe (a b : Reading) : Prop := a.timestamp ≤ b.timestamp

instance : DecidableRel tsLe := fun a b =>
  inferInstanceAs (Decidable (a.timestamp ≤ b.timestamp))

instance : IsTotal Reading tsLe := ⟨fun a b => Int.le_total a.timestamp b.timestamp⟩

instance : IsTrans Reading tsLe := ⟨fun _ _ _ h h' => le_trans h h'⟩

/-- Model of `result.data.sort((a, b) => ta - tb)`: ECMAScript `Array.sort` is
required to be stable, modelled as a stable insertion sort. -/
def sortByTs (rs : List Reading) : List Reading := List.insertionSort tsLe rs

/-- One element of the display sequence.  Fallback-generated points have no
source id, device id or database timestamp. -/
structure DisplayPoint where
  time : Nat
  temperature : ℚ
  timestamp : String
  id : Option Nat
  device_id : Option String
  dbTimestamp : Option Int
deriving Repr, DecidableEq

/-- The `.map((reading, index) => ...)` step of `fetchTemperatureData`:
assign sequence indices starting at `i`, formatting the raw timestamp with
the external `toLocaleTimeString` formatter `fmt`. -/
def assignIdx (fmt : Int → String) : Nat → List Reading → List DisplayPoint
  | _, [] => []
  | i, r :: rs =>
    ⟨i, r.temperature, fmt r.timestamp, some r.id, some r.device_id, some r.timestamp⟩
      :: assignIdx fmt (i + 1) rs

/-- The success path of `fetchTemperatureData`: sort oldest-to-newest by
timestamp, then assign sequence indices 0..N-1 (0 = oldest). -/
def transformReadings (fmt : Int → String) (data : List Reading) : List DisplayPoint :=
  assignIdx fmt 0 (sortByTs data)

/-- JS `Math.round`: half-up, `⌊x + 1/2⌋`. -/
def jsRound (x : ℚ) : Int := ⌊x + 1 / 2⌋

/-- Model of `Math.round(t * 10) / 10`: round to one decimal. -/
def jsRound1 (x : ℚ) : ℚ := ((jsRound (x * 10) : ℚ)) / 10

/-- One iteration of the fallback generator's loop body, threading the
`baseTemp` random walk and appending the new point.  `rand k` is the value
of the k-th `Math.random()` call (iteration `i` consumes calls `2*i` and
`2*i+1`), `sinA` is `Math.sin`, `now` is `Date.now()` and `fmt` formats
`now + i * 60000` as a time label. -/
def genStep (rand : Nat → ℚ) (sinA : ℚ → ℚ) (now : Int) (fmt : Int → String)
    (st : ℚ × List DisplayPoint) (i : Nat) : ℚ × List DisplayPoint :=
  let baseTemp := st.1
  let variation := sinA ((i : ℚ) / 10) * 8 + (rand (2 * i) - 1 / 2) * 4
  let temp := max 20 (min 50 (baseTemp + variation))
  let pt : DisplayPoint :=
    ⟨i, jsRound1 temp, fmt (now + (i : Int) * 60000), none, none, none⟩
  (baseTemp + (rand (2 * i + 1) - 1 / 2) * (1 / 2), st.2 ++ [pt])

/-- Model of `generateTemperatureData`: 60 synthetic points, sinusoidal base plus
jitter, clamped to [20, 50] (then rounded to one decimal), with a slow
random-walk drift of the base temperature starting at 35. -/
def generateTemperatureData (rand : Nat → ℚ) (sinA : ℚ → ℚ) (now : Int)
    (fmt : Int → String) : List DisplayPoint :=
  ((List.range 60).foldl (genStep rand sinA now fmt) (35, [])).2

/-- Outcome of `fetch('/lab/api?limit=60')` followed by `response.json()`:
either a thrown transport/parse error, or a parsed response with its `ok`
flag and (possibly missing) `data` array. -/
inductive FetchOutcome where
  | transportError
  | response (ok : Bool) (data : Option (List Reading))
deriving Repr, DecidableEq

/-- Model of `fetchTemperatureData`: on `result.ok && result.data` transform the
rows, otherwise (missing data, failure flag, or a thrown error) return the
synthetic fallback sequence. -/
def fetchTemperatureData (o : FetchOutcome) (rand : Nat → ℚ) (sinA : ℚ → ℚ)
    (now : Int) (fmt : Int → String) : List DisplayPoint :=
  match o with
  | .response true (some data) => transformReadings fmt data
  | .response _ _ => generateTemperatureData rand sinA now fmt
  | .transportError => generateTemperatureData rand sinA now fmt

/-- The JSON body built by `addTemperatureReading(temperature, location)`:
`JSON.stringify({temperature: parseFloat(temperature), location, metadata:
{source: 'manual_entry'}})`.  It has a `location` key and no `device_id`
(and no `timestamp`) key; `tv = none` models `parseFloat` yielding `NaN`
(serialized as JSON null, which the server again parses as `NaN`). -/
def addTemperatureReadingBody (tv : Option ℚ) (location : String) : PostBody :=
  { temperature := some tv
    device_id := none
    timestamp := none
    metadata := some "\x7b\"source\":\"manual_entry\"\x7d"
    location := some location }

/-- Model of `addTemperatureReading` as seen by the store: the UI body POSTed to the
endpoint. -/
def addTemperatureReading (tv : Option ℚ) (location : String) (db : Option Db) :
    PostResponse × Option Db :=
  POST (addTemperatureReadingBody tv location) db

/-- Value `graphWidth = width - padding.left - padding.right = 800 - 60 - 40`. -/
def graphWidth : ℚ := 800 - 60 - 40

/-- Value `graphHeight = height - padding.top - padding.bottom = 400 - 20 - 60`. -/
def graphHeight : ℚ := 400 - 20 - 60

/-- The horizontal scale: 0 when the display sequence is empty, otherwise
`graphWidth - (time / max(len - 1, 59)) * graphWidth` (inverted axis).
`len` is the length of the display sequence. -/
def xScale (len : Nat) (time : ℚ) : ℚ :=
  if len = 0 then 0
  else graphWidth - (time / max ((len : ℚ) - 1) 59) * graphWidth

/-- The vertical scale: `graphHeight - ((temp - 20) / 30) * graphHeight`. -/
def yScale (temp : ℚ) : ℚ := graphHeight - ((temp - 20) / 30) * graphHeight

/-- Model of `generatePath`: `M x y` for the first point, `L x y` for the rest,
joined by single spaces.  `fmt` is the external JS number-to-string
conversion used by the template literal; `len` tracks the length of the
global display sequence read by `xScale` (the component calls the
generator on that same sequence). -/
def generatePathAux (fmt : ℚ → String) (len : Nat) : Nat → List DisplayPoint → List String
  | _, [] => []
  | i, p :: ps =>
    ((if i = 0 then "M " else "L ") ++ fmt (xScale len (p.time : ℚ)) ++ " "
        ++ fmt (yScale p.temperature))
      :: generatePathAux fmt len (i + 1) ps

/-- Model of `generatePath(data)` with `xScale` reading `data.length`. -/
def generatePath (fmt : ℚ → String) (data : List DisplayPoint) : String :=
  String.intercalate " " (generatePathAux fmt data.length 0 data)

/-- The tooltip point: the spread `{...point, x: pointX, y: yScale(...)}`. -/
structure Hover where
  point : DisplayPoint
  x : ℚ
  y : ℚ
deriving Repr, DecidableEq

/-- The hover candidate built from a display point. -/
def mkHover (len : Nat) (p : DisplayPoint) : Hover :=
  ⟨p, xScale len (p.time : ℚ), yScale p.temperature⟩

/-- Horizontal distance from the pointer to a point's plotted x position. -/
def hitDist (mouseX : ℚ) (len : Nat) (p : DisplayPoint) : ℚ :=
  |xScale len (p.time : ℚ) - mouseX|

/-- One step of the `forEach` scan of `handleMouseMove`: replace the
closest candidate when the new distance is strictly smaller
(`distance < closestDistance`, initially Infinity). -/
def scanStep (mouseX : ℚ) (len : Nat) (acc : Option (Hover × ℚ)) (p : DisplayPoint) :
    Option (Hover × ℚ) :=
  let d := hitDist mouseX len p
  match acc with
  | none => some (mkHover len p, d)
  | some (c, cd) => if d < cd then some (mkHover len p, d) else some (c, cd)

/-- The `forEach` scan over the display sequence. -/
def findClosest (mouseX : ℚ) (len : Nat) (data : List DisplayPoint) :
    Option (Hover × ℚ) :=
  data.foldl (scanStep mouseX len) none

/-- The hit-testing core: the closest point is revealed only when its
distance is strictly below 20 pixels. -/
def hitTest (mouseX : ℚ) (data : List DisplayPoint) : Option Hover :=
  match findClosest mouseX data.length data with
  | some (c, cd) => if cd < 20 then some c else none
  | none => none

/-- Model of `handleMouseMove`: inside the graph rectangle run the hit test,
outside it clear the hover point. -/
def handleMouseMove (mouseX mouseY : ℚ) (data : List DisplayPoint) : Option Hover :=
  if 0 ≤ mouseX ∧ mouseX ≤ graphWidth ∧ 0 ≤ mouseY ∧ mouseY ≤ graphHeight then
    hitTest mouseX data
  else none

/-- Reference recursion computing what the scan keeps: the first point (in
sequence order) whose distance is minimal, seeded with the current
candidate `c`. -/
def firstMinPt (mouseX : ℚ) (len : Nat) (c : DisplayPoint) :
    List DisplayPoint → DisplayPoint
  | [] => c
  | p :: ps =>
    if hitDist mouseX len p < hitDist mouseX len c
    then firstMinPt mouseX len p ps
    else firstMinPt mouseX len c ps

/-- The refresh scheduler's world: armed interval-timer handles, a fresh-id
counter for `setInterval`, and the component's `refreshTimer` variable. -/
structure Sched where
  outstanding : List Nat
  nextId : Nat
  refreshTimer : Option Nat
deriving Repr, DecidableEq

/-- Model of `clearInterval(t)`: disarm the handle (a no-op when not armed). -/
def clearIntervalM (t : Nat) (s : Sched) : Sched :=
  { s with outstanding := s.outstanding.erase t }

/-- Model of `setInterval(...)`: arm a fresh periodic timer, returning its handle. -/
def setIntervalM (s : Sched) : Nat × Sched :=
  (s.nextId, { s with outstanding := s.outstanding ++ [s.nextId], nextId := s.nextId + 1 })

/-- Model of `setupAutoRefresh`: cancel the prior timer (if any), then arm a new one
exactly when auto-refresh is enabled and the interval is positive.  Note
the code leaves a stale handle in `refreshTimer` when it does not re-arm. -/
def setupAutoRefresh (isAutoRefresh : Bool) (refreshInterval : Int) (s : Sched) : Sched :=
  let s1 := match s.refreshTimer with
    | some t => clearIntervalM t s
    | none => s
  if isAutoRefresh = true ∧ 0 < refreshInterval then
    let armed := setIntervalM s1
    { armed.2 with refreshTimer := some armed.1 }
  else s1

/-- The scheduler invariant: every armed timer is the one `refreshTimer`
points to — in particular at most one timer is outstanding. -/
def SchedInv (s : Sched) : Prop :=
  s.outstanding = [] ∨ ∃ t, s.refreshTimer = some t ∧ s.outstanding = [t]

/-- A concrete display point at sequence index 0. -/
def c3Pt : DisplayPoint := ⟨0, 25, "00:00", some 1, some "pico_xxx", some 0⟩

/-- Concrete query carrying the `location` filter parameter. -/
def c7Query : GetQuery := { limit := none, offset := none, location := some "lab" }

/-- Concrete one-row store. -/
def c7Db : Db := ⟨[⟨1, 25, some "2024-01-01 00:00:00", some "pico_xxx", none⟩], 2⟩

end TempLab

namespace TempLab

/-- C1: a POST whose body lacks the temperature field, carries a value that
does not parse to a number, or carries a number outside [-50, 100], is
answered with status 400 (`ok = false`) and leaves the store unchanged. -/
theorem c1_post_validation (body : PostBody) (db : Option Db)
    (h : body.temperature = none ∨ body.temperature = some none ∨
      ∃ t, body.temperature = some (some t) ∧ (t < -50 ∨ 100 < t)) :
    (POST body db).1.status = 400 ∧ (POST body db).1.ok = false ∧ (POST body db).2 = db := by
  rcases h with h | h | ⟨t, h, ht⟩
  · simp [POST, h]
  · simp [POST, h]
  · have : t < -50 ∨ t > 100 := ht
    simp [POST, h, this]

/-- Witness for C1 at the concrete out-of-range temperature 150. -/
theorem c1_post_validation_witness :
    (POST ⟨some (some 150), none, none, none, none⟩ (some ⟨[], 1⟩)).1.status = 400 ∧
    (POST ⟨some (some 150), none, none, none, none⟩ (some ⟨[], 1⟩)).1.ok = false ∧
    (POST ⟨some (some 150), none, none, none, none⟩ (some ⟨[], 1⟩)).2 = some ⟨[], 1⟩ :=
  c1_post_validation _ _ (Or.inr (Or.inr ⟨150, rfl, Or.inr (by norm_num)⟩))

/-- C2: a list request without the location filter, whose limit parses to
`L ≥ 0` (100 when absent) and whose offset parses to `O ≥ 0` (0 when
absent), returns at most `L` readings, reports a limit capped at 1000, and
its `hasMore` flag is true iff `offset + limit < total`. -/
theorem c2_list_pagination (q : GetQuery) (db : Db) (L O : Int)
    (hLoc : locationActive q = false)
    (hL : parsedLimit q = some L) (hO : parsedOffset q = some O)
    (hLnn : 0 ≤ L) (hOnn : 0 ≤ O) :
    ∃ data m, GET q (some db) = GetResponse.ok data m ∧
      (data.length : Int) ≤ L ∧
      m.limit = min L 1000 ∧ m.limit ≤ 1000 ∧
      (q.limit = none → m.limit = 100) ∧
      m.offset = O ∧ (q.offset = none → O = 0) ∧
      m.total = (db.rows.length : Int) ∧
      (m.hasMore = true ↔ m.offset + m.limit < m.total) := by
  have hmin : (0 : Int) ≤ min L 1000 := le_min hLnn (by norm_num)
  have hGET : GET q (some db) = GetResponse.ok
      (sqlLimit (min L 1000) (sqlOffset O (sortByTimestampDesc db.rows)))
      ⟨(db.rows.length : Int), min L 1000, O,
        decide (O + min L 1000 < (db.rows.length : Int))⟩ := by
    simp only [GET, hL, hO, hLoc, Bool.false_eq_true, if_false, runSelect, runCount]
  refine ⟨_, _, hGET, ?_, rfl, ?_, ?_, rfl, ?_, rfl, ?_⟩
  · show ((sqlLimit (min L 1000) (sqlOffset O (sortByTimestampDesc db.rows))).length : Int) ≤ L
    have hnotlt : ¬ (min L 1000 < 0) := not_lt.mpr hmin
    simp only [sqlLimit, if_neg hnotlt]
    calc ((List.take (min L 1000).toNat (sqlOffset O (sortByTimestampDesc db.rows))).length : Int)
        ≤ ((min L 1000).toNat : Int) := by
          exact_mod_cast List.length_take_le _ _
      _ = min L 1000 := Int.toNat_of_nonneg hmin
      _ ≤ L := min_le_left _ _
  · exact min_le_right _ _
  · intro hnone
    have : L = 100 := by
      have := hL
      rw [parsedLimit, hnone] at this
      exact (Option.some.injEq _ _).mp this.symm
    simp [this]
  · intro hnone
    have := hO
    rw [parsedOffset, hnone] at this
    exact (Option.some.injEq _ _).mp this.symm
  · exact decide_eq_true_iff

/-- Witness for C2: default limit and offset on a one-row store. -/
theorem c2_list_pagination_witness :
    ∃ data m, GET ⟨none, none, none⟩ (some c7Db) = GetResponse.ok data m ∧
      (data.length : Int) ≤ 100 ∧
      m.limit = min 100 1000 ∧ m.limit ≤ 1000 ∧
      ((⟨none, none, none⟩ : GetQuery).limit = none → m.limit = 100) ∧
      m.offset = 0 ∧ ((⟨none, none, none⟩ : GetQuery).offset = none → (0 : Int) = 0) ∧
      m.total = (c7Db.rows.length : Int) ∧
      (m.hasMore = true ↔ m.offset + m.limit < m.total) :=
  c2_list_pagination ⟨none, none, none⟩ c7Db 100 0 rfl rfl rfl (by norm_num) le_rfl

/-- C7 counterexample: with the `location` filter supplied, the endpoint
does not answer with an ok response carrying zero readings — the query
fails on the unknown column and the catch block answers 500. -/
theorem c7_counterexample :
    ¬ ∃ m : ListMeta, GET c7Query (some c7Db) = GetResponse.ok [] m := by
  rintro ⟨m, h⟩
  have h500 : GET c7Query (some c7Db) =
      GetResponse.error 500 "Failed to fetch temperature readings" := by decide
  rw [h500] at h
  exact GetResponse.noConfusion h

/-- C7 (amended): a list request with an active `location` filter makes the
query reference a column absent from the schema; the query errors and the
endpoint returns a 500 error response, not a silent empty ok response. -/
theorem c7_unknown_column (q : GetQuery) (d : Db)
    (hLoc : locationActive q = true) :
    GET q (some d) = GetResponse.error 500 "Failed to fetch temperature readings" := by
  have hnotin : ("location" ∈ schemaColumns) = False := by simp [schemaColumns]
  simp only [GET, hLoc, if_pos trivial]
  cases hpl : parsedLimit q with
  | none => rfl
  | some pl =>
    cases hpo : parsedOffset q with
    | none => rfl
    | some po => simp only [runSelect, hnotin, if_false]

/-- Witness for C7's amended theorem at a concrete filtered request. -/
theorem c7_unknown_column_witness :
    GET c7Query (some c7Db) = GetResponse.error 500 "Failed to fetch temperature readings" :=
  c7_unknown_column c7Query c7Db (by decide)

/-- C10: on an empty display sequence the horizontal scale returns 0 for
every input (explicit length guard) and the path generator returns the
empty path string. -/
theorem c10_empty_rendering :
    (∀ t : ℚ, xScale 0 t = 0) ∧ (∀ fmt : ℚ → String, generatePath fmt [] = "") := by
  constructor
  · intro t
    simp [xScale]
  · intro fmt
    rfl

/-- C4: for a non-empty display sequence the horizontal scale sends index 0
(the oldest point) to the right edge `graphWidth`, is strictly decreasing
in the index, and — the denominator being `max(length - 1, 59)` — places
the newest point strictly right of the left edge when there are fewer than
60 points, but exactly on the left edge from 60 points on. -/
theorem c4_xscale_inversion (len : Nat) (h : 1 ≤ len) :
    xScale len 0 = graphWidth ∧
    (∀ i j : ℚ, i < j → xScale len j < xScale len i) ∧
    (len < 60 → 0 < xScale len ((len : ℚ) - 1)) ∧
    (60 ≤ len → xScale len ((len : ℚ) - 1) = 0) := by
  have hne : len ≠ 0 := by omega
  have hm : (0 : ℚ) < max ((len : ℚ) - 1) 59 :=
    lt_of_lt_of_le (by norm_num) (le_max_right _ _)
  have hW : (0 : ℚ) < graphWidth := by norm_num [graphWidth]
  refine ⟨?_, ?_, ?_, ?_⟩
  · simp [xScale, hne]
  · intro i j hij
    simp only [xScale, if_neg hne]
    have hdiv : i / max ((len : ℚ) - 1) 59 < j / max ((len : ℚ) - 1) 59 :=
      (div_lt_div_iff_of_pos_right hm).mpr hij
    have := mul_lt_mul_of_pos_right hdiv hW
    linarith
  · intro h60
    simp only [xScale, if_neg hne]
    have hlt : (len : ℚ) < 60 := by exact_mod_cast h60
    have hmax : max ((len : ℚ) - 1) 59 = 59 := max_eq_right (by linarith)
    rw [hmax]
    have h1 : ((len : ℚ) - 1) / 59 < 1 := by
      rw [div_lt_one (by norm_num : (0 : ℚ) < 59)]
      linarith
    have := mul_lt_mul_of_pos_right h1 hW
    linarith
  · intro h60
    have hge : (60 : ℚ) ≤ (len : ℚ) := by exact_mod_cast h60
    have hmax : max ((len : ℚ) - 1) 59 = (len : ℚ) - 1 := max_eq_left (by linarith)
    simp only [xScale, if_neg hne, hmax]
    rw [div_self (by linarith : (len : ℚ) - 1 ≠ 0), one_mul, sub_self]

/-- Witness for C4 at the five-point sequence: index 0 is at the right
edge and the newest index 4 is strictly right of the left edge. -/
theorem c4_xscale_inversion_witness :
    xScale 5 0 = graphWidth ∧ 0 < xScale 5 ((5 : ℚ) - 1) :=
  ⟨(c4_xscale_inversion 5 (by norm_num)).1,
    (c4_xscale_inversion 5 (by norm_num)).2.2.1 (by norm_num)⟩

/-- C8: assuming every armed timer is the one `refreshTimer` tracks,
`setupAutoRefresh` cancels the prior timer and leaves exactly one armed
timer when auto-refresh is enabled with a positive interval, none
otherwise — so at most one timer handle is ever outstanding. -/
theorem c8_single_timer (e : Bool) (i : Int) (s : Sched) (hinv : SchedInv s) :
    SchedInv (setupAutoRefresh e i s) ∧
    (setupAutoRefresh e i s).outstanding =
      (if e = true ∧ 0 < i then [s.nextId] else []) ∧
    (setupAutoRefresh e i s).outstanding.length ≤ 1 ∧
    (setupAutoRefresh e i s).refreshTimer =
      (if e = true ∧ 0 < i then some s.nextId else s.refreshTimer) := by
  have hcleared : ∀ t, s.refreshTimer = some t → s.outstanding.erase t = [] := by
    intro t ht
    rcases hinv with hout | ⟨t', ht', hout⟩
    · rw [hout]
      rfl
    · rw [ht'] at ht
      cases ht
      rw [hout, List.erase_cons_head]
  cases hrt : s.refreshTimer with
  | none =>
    have hout : s.outstanding = [] := by
      rcases hinv with hout | ⟨t', ht', _⟩
      · exact hout
      · rw [hrt] at ht'
        cases ht'
    by_cases hc : e = true ∧ 0 < i
    · simp only [setupAutoRefresh, hrt, if_pos hc, setIntervalM, hout]
      exact ⟨Or.inr ⟨s.nextId, rfl, rfl⟩, by simp [hc], by simp, by simp [hc]⟩
    · simp only [setupAutoRefresh, hrt, if_neg hc]
      exact ⟨Or.inl hout, by simp [hc, hout], by simp [hout], by simp [hc, hrt]⟩
  | some t =>
    have herase := hcleared t hrt
    by_cases hc : e = true ∧ 0 < i
    · simp only [setupAutoRefresh, hrt, if_pos hc, setIntervalM, clearIntervalM, herase]
      exact ⟨Or.inr ⟨s.nextId, rfl, rfl⟩, by simp [hc], by simp, by simp [hc]⟩
    · simp only [setupAutoRefresh, hrt, if_neg hc, clearIntervalM, herase]
      exact ⟨Or.inl rfl, by simp [hc], by simp, by simp [hc, hrt]⟩

/-- The stable insertion of one reading preserves, for every timestamp
value, the subsequence of readings carrying that timestamp. -/
theorem filter_orderedInsert (t : Int) (x : Reading) (l : List Reading) :
    (List.orderedInsert tsLe x l).filter (fun r => decide (r.timestamp = t)) =
    ((x :: l).filter (fun r => decide (r.timestamp = t))) := by
  induction l with
  | nil => rfl
  | cons y l ih =>
    by_cases h : tsLe x y
    · simp [List.orderedInsert, h]
    · have hyx : y.timestamp < x.timestamp := not_le.mp (by simpa [tsLe] using h)
      simp only [List.orderedInsert, if_neg h]
      by_cases hx : x.timestamp = t
      · have hy : ¬ y.timestamp = t := by omega
        simp [List.filter_cons, hx, hy, ih]
      · by_cases hy : y.timestamp = t
        · simp [List.filter_cons, hx, hy, ih]
        · simp [List.filter_cons, hx, hy, ih]

/-- Stability of the client sort: for every timestamp value, sorting keeps
the readings with that timestamp in their original relative order. -/
theorem filter_sortByTs (t : Int) (rs : List Reading) :
    (sortByTs rs).filter (fun r => decide (r.timestamp = t)) =
    rs.filter (fun r => decide (r.timestamp = t)) := by
  induction rs with
  | nil => rfl
  | cons a l ih =>
    show (List.orderedInsert tsLe a (List.insertionSort tsLe l)).filter _ = _
    rw [filter_orderedInsert]
    by_cases ha : a.timestamp = t
    · simpa [List.filter_cons, ha] using ih
    · simpa [List.filter_cons, ha] using ih

/-- Sorting an already-sorted reading list is the identity. -/
theorem sortByTs_idem (rs : List Reading) : sortByTs (sortByTs rs) = sortByTs rs :=
  List.Sorted.insertionSort_eq (List.sorted_insertionSort tsLe rs)

/-- C5: the client transform (stable sort by timestamp ascending, then
sequence indices 0..N-1) is stable — every timestamp's readings keep their
original relative order — and idempotent: re-running the transform on its
already-sorted output reproduces the same order and the same indices. -/
theorem c5_transform_stable_idempotent (fmt : Int → String) (rs : List Reading) :
    (∀ t : Int, (sortByTs rs).filter (fun r => decide (r.timestamp = t)) =
      rs.filter (fun r => decide (r.timestamp = t))) ∧
    transformReadings fmt (sortByTs rs) = transformReadings fmt rs := by
  refine ⟨fun t => filter_sortByTs t rs, ?_⟩
  unfold transformReadings
  rw [sortByTs_idem]

/-- Rounding to one decimal keeps a value of [20, 50] inside [20, 50]. -/
theorem jsRound1_mem (x : ℚ) (h1 : 20 ≤ x) (h2 : x ≤ 50) :
    20 ≤ jsRound1 x ∧ jsRound1 x ≤ 50 := by
  unfold jsRound1 jsRound
  have hlow : (200 : Int) ≤ ⌊x * 10 + 1 / 2⌋ := by
    apply Int.le_floor.mpr
    push_cast
    linarith
  have hhigh : ⌊x * 10 + 1 / 2⌋ ≤ 500 := by
    have hlt : ⌊x * 10 + 1 / 2⌋ < 501 := by
      apply Int.floor_lt.mpr
      push_cast
      linarith
    omega
  constructor
  · have hc : (200 : ℚ) ≤ (⌊x * 10 + 1 / 2⌋ : ℚ) := by exact_mod_cast hlow
    rw [le_div_iff₀ (by norm_num : (0 : ℚ) < 10)]
    linarith
  · have hc : ((⌊x * 10 + 1 / 2⌋ : ℚ)) ≤ 500 := by exact_mod_cast hhigh
    rw [div_le_iff₀ (by norm_num : (0 : ℚ) < 10)]
    linarith

/-- Invariant of the fallback generator's fold: the accumulated list grows
by one point per iteration and every appended point is clamped. -/
theorem genFold_spec (rand : Nat → ℚ) (sinA : ℚ → ℚ) (now : Int)
    (fmt : Int → String) (l : List Nat) :
    ∀ (base : ℚ) (acc : List DisplayPoint),
    (l.foldl (genStep rand sinA now fmt) (base, acc)).2.length = acc.length + l.length ∧
    ∀ p ∈ (l.foldl (genStep rand sinA now fmt) (base, acc)).2,
      p ∈ acc ∨ (20 ≤ p.temperature ∧ p.temperature ≤ 50) := by
  induction l with
  | nil =>
    intro base acc
    exact ⟨by simp, fun p hp => Or.inl hp⟩
  | cons i l ih =>
    intro base acc
    simp only [List.foldl_cons, List.length_cons]
    obtain ⟨hlen, hmem⟩ := ih
      (base + (rand (2 * i + 1) - 1 / 2) * (1 / 2))
      (acc ++ [⟨i,
        jsRound1 (max 20 (min 50 (base + (sinA ((i : ℚ) / 10) * 8 + (rand (2 * i) - 1 / 2) * 4)))),
        fmt (now + (i : Int) * 60000), none, none, none⟩])
    refine ⟨?_, fun p hp => ?_⟩
    · rw [show genStep rand sinA now fmt (base, acc) i =
        (base + (rand (2 * i + 1) - 1 / 2) * (1 / 2),
          acc ++ [⟨i,
            jsRound1 (max 20 (min 50
              (base + (sinA ((i : ℚ) / 10) * 8 + (rand (2 * i) - 1 / 2) * 4)))),
            fmt (now + (i : Int) * 60000), none, none, none⟩]) from rfl]
      rw [hlen]
      simp only [List.length_append, List.length_cons, List.length_nil]
      omega
    · rw [show genStep rand sinA now fmt (base, acc) i =
        (base + (rand (2 * i + 1) - 1 / 2) * (1 / 2),
          acc ++ [⟨i,
            jsRound1 (max 20 (min 50
              (base + (sinA ((i : ℚ) / 10) * 8 + (rand (2 * i) - 1 / 2) * 4)))),
            fmt (now + (i : Int) * 60000), none, none, none⟩]) from rfl] at hp
      rcases hmem p hp with hin | hb
      · rcases List.mem_append.mp hin with hacc | hnew
        · exact Or.inl hacc
        · have hp' := List.mem_singleton.mp hnew
          subst hp'
          refine Or.inr (jsRound1_mem _ (le_max_left _ _) (max_le (by norm_num) (min_le_left _ _)))
      · exact Or.inr hb

/-- The fallback generator always yields 60 points, all within [20, 50],
whatever the random stream, the sine approximation, the clock and the
formatter are. -/
theorem generate_len_bounds (rand : Nat → ℚ) (sinA : ℚ → ℚ) (now : Int)
    (fmt : Int → String) :
    (generateTemperatureData rand sinA now fmt).length = 60 ∧
    ∀ p ∈ generateTemperatureData rand sinA now fmt,
      20 ≤ p.temperature ∧ p.temperature ≤ 50 := by
  obtain ⟨hlen, hmem⟩ := genFold_spec rand sinA now fmt (List.range 60) 35 []
  refine ⟨by simpa [generateTemperatureData] using hlen, fun p hp => ?_⟩
  rcases hmem p hp with h | h
  · simp at h
  · exact h

/-- C6: on a transport/parse failure or a response with the failure flag
(or missing data), the client fetch swallows the error and returns the
synthetic fallback sequence — exactly 60 points, each with a temperature
clamped to [20, 50] — so the display sequence is not empty. -/
theorem c6_fallback (o : FetchOutcome) (rand : Nat → ℚ) (sinA : ℚ → ℚ)
    (now : Int) (fmt : Int → String)
    (h : o = .transportError ∨ (∃ d, o = .response false d) ∨ o = .response true none) :
    fetchTemperatureData o rand sinA now fmt = generateTemperatureData rand sinA now fmt ∧
    (fetchTemperatureData o rand sinA now fmt).length = 60 ∧
    (∀ p ∈ fetchTemperatureData o rand sinA now fmt,
      20 ≤ p.temperature ∧ p.temperature ≤ 50) ∧
    fetchTemperatureData o rand sinA now fmt ≠ [] := by
  have heq : fetchTemperatureData o rand sinA now fmt =
      generateTemperatureData rand sinA now fmt := by
    rcases h with h | ⟨d, h⟩ | h
    · subst h
      rfl
    · subst h
      rfl
    · subst h
      rfl
  obtain ⟨hlen, hb⟩ := generate_len_bounds rand sinA now fmt
  refine ⟨heq, heq ▸ hlen, heq ▸ hb, ?_⟩
  rw [heq]
  intro hnil
  rw [hnil] at hlen
  simp at hlen

/-- Witness for C6 at a concrete transport failure and trivial external
functions. -/
theorem c6_fallback_witness :
    fetchTemperatureData .transportError (fun _ => 0) (fun _ => 0) 0 (fun _ => "") =
      generateTemperatureData (fun _ => 0) (fun _ => 0) 0 (fun _ => "") ∧
    (fetchTemperatureData .transportError (fun _ => 0) (fun _ => 0) 0 (fun _ => "")).length
      = 60 :=
  ⟨(c6_fallback _ _ _ _ _ (Or.inl rfl)).1, (c6_fallback _ _ _ _ _ (Or.inl rfl)).2.1⟩

/-- Scanning from a present candidate keeps the first point attaining the
minimal horizontal distance. -/
theorem foldl_scan_eq (mouseX : ℚ) (len : Nat) :
    ∀ (l : List DisplayPoint) (c : DisplayPoint),
    l.foldl (scanStep mouseX len) (some (mkHover len c, hitDist mouseX len c)) =
      some (mkHover len (firstMinPt mouseX len c l),
        hitDist mouseX len (firstMinPt mouseX len c l)) := by
  intro l
  induction l with
  | nil => intro c; rfl
  | cons p ps ih =>
    intro c
    simp only [List.foldl_cons, firstMinPt]
    by_cases h : hitDist mouseX len p < hitDist mouseX len c
    · rw [show scanStep mouseX len (some (mkHover len c, hitDist mouseX len c)) p =
        some (mkHover len p, hitDist mouseX len p) by simp [scanStep, h]]
      rw [ih, if_pos h]
    · rw [show scanStep mouseX len (some (mkHover len c, hitDist mouseX len c)) p =
        some (mkHover len c, hitDist mouseX len c) by simp [scanStep, h]]
      rw [ih, if_neg h]

/-- The scan over a non-empty display sequence returns the first minimal
point, seeded with the head. -/
theorem findClosest_cons (mouseX : ℚ) (len : Nat) (p : DisplayPoint)
    (ps : List DisplayPoint) :
    findClosest mouseX len (p :: ps) =
      some (mkHover len (firstMinPt mouseX len p ps),
        hitDist mouseX len (firstMinPt mouseX len p ps)) := by
  unfold findClosest
  simp only [List.foldl_cons]
  rw [show scanStep mouseX len none p = some (mkHover len p, hitDist mouseX len p) from rfl]
  exact foldl_scan_eq mouseX len ps p

/-- The kept point's distance is minimal among the seed and the scanned
points. -/
theorem firstMinPt_min (mouseX : ℚ) (len : Nat) :
    ∀ (l : List DisplayPoint) (c : DisplayPoint),
    hitDist mouseX len (firstMinPt mouseX len c l) ≤ hitDist mouseX len c ∧
    ∀ q ∈ l, hitDist mouseX len (firstMinPt mouseX len c l) ≤ hitDist mouseX len q := by
  intro l
  induction l with
  | nil =>
    intro c
    exact ⟨le_refl _, by simp⟩
  | cons p ps ih =>
    intro c
    simp only [firstMinPt]
    by_cases h : hitDist mouseX len p < hitDist mouseX len c
    · rw [if_pos h]
      obtain ⟨h1, h2⟩ := ih p
      refine ⟨le_trans h1 (le_of_lt h), fun q hq => ?_⟩
      rcases List.mem_cons.mp hq with rfl | hq
      · exact h1
      · exact h2 q hq
    · rw [if_neg h]
      obtain ⟨h1, h2⟩ := ih c
      refine ⟨h1, fun q hq => ?_⟩
      rcases List.mem_cons.mp hq with rfl | hq
      · exact le_trans h1 (not_lt.mp h)
      · exact h2 q hq

/-- Tie-breaking: the kept point is either the seed (every scanned point
being no closer), or the first scanned point strictly closer than the seed
and than everything before it, and no farther than everything after it. -/
theorem firstMinPt_first (mouseX : ℚ) (len : Nat) :
    ∀ (l : List DisplayPoint) (c : DisplayPoint),
    (firstMinPt mouseX len c l = c ∧
      ∀ q ∈ l, hitDist mouseX len c ≤ hitDist mouseX len q) ∨
    (∃ l₁ l₂, l = l₁ ++ firstMinPt mouseX len c l :: l₂ ∧
      hitDist mouseX len (firstMinPt mouseX len c l) < hitDist mouseX len c ∧
      (∀ q ∈ l₁, hitDist mouseX len (firstMinPt mouseX len c l) < hitDist mouseX len q) ∧
      (∀ q ∈ l₂, hitDist mouseX len (firstMinPt mouseX len c l) ≤ hitDist mouseX len q)) := by
  intro l
  induction l with
  | nil =>
    intro c
    left
    exact ⟨rfl, by simp⟩
  | cons p ps ih =>
    intro c
    simp only [firstMinPt]
    by_cases h : hitDist mouseX len p < hitDist mouseX len c
    · rw [if_pos h]
      rcases ih p with ⟨heq, hall⟩ | ⟨l₁, l₂, hsplit, hlt, hstrict, hle⟩
      · right
        refine ⟨[], ps, ?_, ?_, by simp, ?_⟩
        · rw [heq]
          rfl
        · rw [heq]
          exact h
        · intro q hq
          rw [heq]
          exact hall q hq
      · right
        refine ⟨p :: l₁, l₂, ?_, lt_trans hlt h, fun q hq => ?_, hle⟩
        · rw [List.cons_append, ← hsplit]
        · rcases List.mem_cons.mp hq with rfl | hq
          · exact hlt
          · exact hstrict q hq
    · rw [if_neg h]
      rcases ih c with ⟨heq, hall⟩ | ⟨l₁, l₂, hsplit, hlt, hstrict, hle⟩
      · left
        refine ⟨heq, fun q hq => ?_⟩
        rcases List.mem_cons.mp hq with rfl | hq
        · exact not_lt.mp h
        · exact hall q hq
      · right
        refine ⟨p :: l₁, l₂, ?_, hlt, fun q hq => ?_, hle⟩
        · rw [List.cons_append, ← hsplit]
        · rcases List.mem_cons.mp hq with rfl | hq
          · exact lt_of_lt_of_le hlt (not_lt.mp h)
          · exact hstrict q hq

/-- C3: hit-testing returns a point only when its horizontal distance to
the pointer is strictly below 20 pixels; the returned point minimizes that
distance, and on ties the first point in sequence order wins (everything
before it in the sequence is strictly farther).  When no point is within
20 pixels (or the sequence is empty), nothing is returned. -/
theorem c3_hit_testing (data : List DisplayPoint) (mouseX : ℚ) :
    (∀ h, hitTest mouseX data = some h →
      h.x = xScale data.length (h.point.time : ℚ) ∧
      h.y = yScale h.point.temperature ∧
      hitDist mouseX data.length h.point < 20 ∧
      (∀ q ∈ data, hitDist mouseX data.length h.point ≤ hitDist mouseX data.length q) ∧
      ∃ l₁ l₂, data = l₁ ++ h.point :: l₂ ∧
        ∀ q ∈ l₁, hitDist mouseX data.length h.point < hitDist mouseX data.length q) ∧
    (hitTest mouseX data = none → ∀ q ∈ data, 20 ≤ hitDist mouseX data.length q) := by
  cases data with
  | nil =>
    constructor
    · intro h hh
      simp [hitTest, findClosest] at hh
    · intro _ q hq
      simp at hq
  | cons p ps =>
    have hfc := findClosest_cons mouseX (p :: ps).length p ps
    have hht : hitTest mouseX (p :: ps) =
        if hitDist mouseX (p :: ps).length (firstMinPt mouseX (p :: ps).length p ps) < 20
        then some (mkHover (p :: ps).length (firstMinPt mouseX (p :: ps).length p ps))
        else none := by
      rw [hitTest, hfc]
    constructor
    · intro h hh
      rw [hht] at hh
      by_cases h20 :
        hitDist mouseX (p :: ps).length (firstMinPt mouseX (p :: ps).length p ps) < 20
      · rw [if_pos h20] at hh
        cases hh
        obtain ⟨hmin1, hmin2⟩ := firstMinPt_min mouseX (p :: ps).length ps p
        refine ⟨rfl, rfl, h20, fun q hq => ?_, ?_⟩
        · rcases List.mem_cons.mp hq with rfl | hq
          · exact hmin1
          · exact hmin2 q hq
        · rcases firstMinPt_first mouseX (p :: ps).length ps p with
            ⟨heq, _⟩ | ⟨l₁, l₂, hsplit, hlt, hstrict, _⟩
          · exact ⟨[], ps, by rw [heq]; rfl, by simp⟩
          · refine ⟨p :: l₁, l₂, ?_, fun q hq => ?_⟩
            · have hs : p :: ps =
                  p :: l₁ ++ firstMinPt mouseX (p :: ps).length p ps :: l₂ := by
                rw [List.cons_append, ← hsplit]
              exact hs
            · rcases List.mem_cons.mp hq with rfl | hq
              · exact hlt
              · exact hstrict q hq
      · rw [if_neg h20] at hh
        cases hh
    · intro hnone q hq
      rw [hht] at hnone
      by_cases h20 :
        hitDist mouseX (p :: ps).length (firstMinPt mouseX (p :: ps).length p ps) < 20
      · rw [if_pos h20] at hnone
        cases hnone
      · obtain ⟨hmin1, hmin2⟩ := firstMinPt_min mouseX (p :: ps).length ps p
        have h20' := not_lt.mp h20
        rcases List.mem_cons.mp hq with rfl | hq
        · exact le_trans h20' hmin1
        · exact le_trans h20' (hmin2 q hq)

/-- Witness for C3: a single point plotted at the right edge is hit by a
pointer at x = 700, so its distance is below the 20px threshold. -/
theorem c3_hit_testing_witness :
    hitDist 700 [c3Pt].length c3Pt < 20 :=
  ((c3_hit_testing [c3Pt] 700).1 (mkHover [c3Pt].length c3Pt) (by
    have h1 : hitDist 700 [c3Pt].length c3Pt < 20 := by
      norm_num [hitDist, xScale, c3Pt, graphWidth]
    simp only [hitTest, findClosest_cons, firstMinPt]
    rw [if_pos h1])).2.2.1

/-- C9 counterexample: adding a valid 25-degree reading through the UI
body (location "kitchen") to an empty store stores nothing at all — D1
refuses the `undefined` `device_id`/`timestamp` binds, the handler answers
500 with `ok = false`, and the store is unchanged — so no stored reading
carries the schema default device identifier. -/
theorem c9_counterexample :
    (addTemperatureReading (some 25) "kitchen" (some ⟨[], 1⟩)).2 = some ⟨[], 1⟩ ∧
    (addTemperatureReading (some 25) "kitchen" (some ⟨[], 1⟩)).1.status = 500 ∧
    (addTemperatureReading (some 25) "kitchen" (some ⟨[], 1⟩)).1.ok = false := by
  refine ⟨by decide, by decide, by decide⟩

/-- C9 (amended): the UI's POST body carries a `location` key and no
`device_id` (nor `timestamp`) key; the server binds `body.device_id` into
the insert, so the location value never affects the outcome — but because
D1 rejects the `undefined` binds, every UI add fails (a 400 or 500 error
response) and writes nothing: no reading is ever stored through this path,
in particular none carrying the schema default device identifier. -/
theorem c9_location_ignored (tv : Option ℚ) (loc loc' : String) (d0 : Db) :
    (addTemperatureReadingBody tv loc).location = some loc ∧
    (addTemperatureReadingBody tv loc).device_id = none ∧
    (addTemperatureReadingBody tv loc).timestamp = none ∧
    addTemperatureReading tv loc (some d0) = addTemperatureReading tv loc' (some d0) ∧
    (addTemperatureReading tv loc (some d0)).2 = some d0 ∧
    (addTemperatureReading tv loc (some d0)).1.ok = false := by
  refine ⟨rfl, rfl, rfl, ?_, ?_, ?_⟩
  · cases tv with
    | none => rfl
    | some t => rfl
  · cases tv with
    | none => rfl
    | some t =>
      by_cases hrange : t < -50 ∨ t > 100
      · simp only [addTemperatureReading, addTemperatureReadingBody, POST]
        rw [if_pos hrange]
      · simp only [addTemperatureReading, addTemperatureReadingBody, POST]
        rw [if_neg hrange]
  · cases tv with
    | none => rfl
    | some t =>
      by_cases hrange : t < -50 ∨ t > 100
      · simp only [addTemperatureReading, addTemperatureReadingBody, POST]
        rw [if_pos hrange]
      · simp only [addTemperatureReading, addTemperatureReadingBody, POST]
        rw [if_neg hrange]

/-- Witness for C8: re-arming from a state with one armed timer. -/
theorem c8_single_timer_witness :
    SchedInv (setupAutoRefresh true 30 ⟨[7], 8, some 7⟩) ∧
    (setupAutoRefresh true 30 ⟨[7], 8, some 7⟩).outstanding =
      (if true = true ∧ (0 : Int) < 30 then [(⟨[7], 8, some 7⟩ : Sched).nextId] else []) ∧
    (setupAutoRefresh true 30 ⟨[7], 8, some 7⟩).outstanding.length ≤ 1 ∧
    (setupAutoRefresh true 30 ⟨[7], 8, some 7⟩).refreshTimer =
      (if true = true ∧ (0 : Int) < 30 then some (⟨[7], 8, some 7⟩ : Sched).nextId
        else (⟨[7], 8, some 7⟩ : Sched).refreshTimer) :=
  c8_single_timer true 30 ⟨[7], 8, some 7⟩ (Or.inr ⟨7, rfl, rfl⟩)

end TempLab
